import Mathlib

/-!
Verification of the state/cache engine of the planets-browser repository.

The embedding below translates, from the TypeScript source:
  - the class State (src/app/State.ts variant with memoizedPortions,
    concatenated into src/app/planet-card/planet-card.component.ts);
  - the service PlanetsStoreService (the eventListener variant:
    __search, __newPage, __changePageSize, makeNewStateObservable,
    errorStateObservable, initEventListenerSubscription);
  - the service PlanetsService (the caching variant:
    getPlanetsPortion with lastSearched and planetsPortionsCache).

Conventions of the embedding:
  - JS numbers that hold nonnegative integers become Nat; nullable fields
    become Option; a fetch that can fail returns Option.
  - an RxJS observable of a portion is modeled by its settled outcome:
    some portion on success, none on failure.
  - the imperative pipeline (Subject, switchMap, tap) is modeled by an
    explicit run function over a time-stamped dispatch list further below.
-/

namespace PlanetsApp

/-- Records are opaque to the engine (only identity matters); model them
    as bare naturals. -/
abbrev Planet := Nat

/-- Model of models/PlanetsPortion.ts: the shape in which the api returns
    one server-side portion (the next/previous link fields are never read
    by the engine and are omitted). -/
structure PlanetsPortion where
  count : Nat
  results : List Planet
deriving DecidableEq

/-- The outcome, as observed by the engine, of
    PlanetsService.getPlanetsPortion index searchTerm: some portion when the
    request succeeds, none when it fails.  The searchTerm argument is an
    Option String because State.searchTerm is null in the initial state. -/
def Fetcher : Type := Nat → Option String → Option PlanetsPortion

/-- Model of class State (State.ts): pageSize, searchTerm, page, count,
    the error and initial flags, and the memoizedPortions table (a sparse
    array, modeled as a function to Option). searchTerm, page and count are
    null (none) in the initial placeholder state. -/
structure State where
  pageSize : Nat
  searchTerm : Option String
  page : Option Nat
  count : Option Nat
  error : Bool
  initial : Bool
  memoizedPortions : Nat → Option (List Planet)

/-- State.pagesCount(): Math.ceil(count / pageSize).  For count = null the
    JS expression evaluates to 0 (null coerces to 0); for a present count
    and positive pageSize the Nat ceiling (c + ps - 1) / ps coincides with
    Math.ceil. -/
def State.pagesCount (s : State) : Nat :=
  match s.count with
  | some c => (c + s.pageSize - 1) / s.pageSize
  | none => 0

/-- State.portionsCount(): Math.ceil(count / 10), same conventions. -/
def State.portionsCount (s : State) : Nat :=
  match s.count with
  | some c => (c + 9) / 10
  | none => 0

/-- Index helpers of class State.  The source guards each of them with
    a throw when count is 0; the Nat-valued versions below take the
    unwrapped field values and are shared by the engine functions, which
    only reach them after the count = 0 early return.
    begIndex(): pageSize * (page - 1). -/
def begIndexOf (pageSize page : Nat) : Nat := pageSize * (page - 1)

/-- endIndex(): Math.min(pageSize * page, count). -/
def endIndexOf (pageSize page count : Nat) : Nat := min (pageSize * page) count

/-- begPortionIndex(): Math.floor(begIndex() / 10) + 1. -/
def begPortionIndexOf (pageSize page : Nat) : Nat :=
  begIndexOf pageSize page / 10 + 1

/-- endPortionIndex(): Math.floor((endIndex() - 1) / 10) + 1.  Whenever
    count is positive and pageSize and page are at least 1 we have
    endIndex at least 1, so the Nat truncated subtraction agrees with JS. -/
def endPortionIndexOf (pageSize page count : Nat) : Nat :=
  (endIndexOf pageSize page count - 1) / 10 + 1

/-- The list of portion indices iterated by the loops
    for (i = begPortionIndex; i <= endPortionIndex; i++)
    in both makeNewStateObservable and State.planetList:
    the integer interval from begPortionIndexOf to endPortionIndexOf,
    inclusive (empty when the upper end is below the lower end, matching
    the JS loop that runs zero times). -/
def resolvedIndexesOf (pageSize page count : Nat) : List Nat :=
  List.range' (begPortionIndexOf pageSize page)
    (endPortionIndexOf pageSize page count + 1 - begPortionIndexOf pageSize page)

/-- State.begIndex() as a State method: none models the throw on
    count = 0 (and the unset count/page of placeholder states, on which
    the method is never invoked). -/
def State.begIndex (s : State) : Option Nat :=
  match s.count, s.page with
  | some c, some p => if c = 0 then none else some (begIndexOf s.pageSize p)
  | _, _ => none

/-- State.endIndex() as a State method, same conventions. -/
def State.endIndex (s : State) : Option Nat :=
  match s.count, s.page with
  | some c, some p => if c = 0 then none else some (endIndexOf s.pageSize p c)
  | _, _ => none

/-- State.begPortionIndex() as a State method, same conventions. -/
def State.begPortionIndex (s : State) : Option Nat :=
  match s.count, s.page with
  | some c, some p => if c = 0 then none else some (begPortionIndexOf s.pageSize p)
  | _, _ => none

/-- State.endPortionIndex() as a State method, same conventions. -/
def State.endPortionIndex (s : State) : Option Nat :=
  match s.count, s.page with
  | some c, some p => if c = 0 then none else some (endPortionIndexOf s.pageSize p c)
  | _, _ => none

/-- State.resetMemoizedPortions(): clears the memoized portions (a fresh
    array with every slot undefined). -/
def State.resetMemoizedPortions (s : State) : State :=
  { s with memoizedPortions := fun _ => none }

/-- State.copyOf(): a field-by-field copy (the portions array is spread
    into a new array holding the same entries, which in a pure model is
    the same mapping). -/
def State.copyOf (s : State) : State :=
  { pageSize := s.pageSize
    searchTerm := s.searchTerm
    page := s.page
    count := s.count
    error := s.error
    initial := s.initial
    memoizedPortions := s.memoizedPortions }

theorem State.copyOf_eq (s : State) : s.copyOf = s := rfl

/-- The loop body of State.planetList(): walk the resolved indices in
    order, throw (none) as soon as one portion is absent, otherwise
    concatenate the portions. -/
def collectPortions (mem : Nat → Option (List Planet)) : List Nat → Option (List Planet)
  | [] => some []
  | i :: rest =>
    match mem i with
    | none => none
    | some portion => (collectPortions mem rest).map (fun tail => portion ++ tail)

/-- State.planetList(): the list of planets to be displayed.  Returns []
    when count = 0; throws (none) when a required portion is missing from
    memoizedPortions; otherwise concatenates the portions from
    begPortionIndex to endPortionIndex and slices the concatenation at
    begIndex - shift .. endIndex - shift with shift = 10*(begPortionIndex-1)
    (JS slice(a, b) is drop a followed by take (b - a)).  States with count
    or page unset always carry the error or initial flag on the published
    stream and no component derives a list from them; the model reports
    the missing-data failure (none) there. -/
def State.planetList (s : State) : Option (List Planet) :=
  match s.count, s.page with
  | some c, some p =>
    if c = 0 then some []
    else
      match collectPortions s.memoizedPortions (resolvedIndexesOf s.pageSize p c) with
      | none => none
      | some planetList =>
        let shift := 10 * (begPortionIndexOf s.pageSize p - 1)
        some ((planetList.drop (begIndexOf s.pageSize p - shift)).take
          (endIndexOf s.pageSize p c - shift - (begIndexOf s.pageSize p - shift)))
  | _, _ => none

/-- PlanetsStoreService.initialState: new State(25, null, null, null,
    false, true); its constructor calls resetMemoizedPortions. -/
def initialState : State :=
  { pageSize := 25
    searchTerm := none
    page := none
    count := none
    error := false
    initial := true
    memoizedPortions := fun _ => none }

/-- PlanetsStoreService.errorStateObservable(): a copy of initialState
    with the error field set to true.  Note the copy is of initialState,
    not of the state the failed action was applied to, so its pageSize is
    always 25 and its initial flag stays true. -/
def errorStateObservable : State :=
  { initialState.copyOf with error := true }

/-- A getPlanetsPortion call issued by the engine, recorded so the
    theorems can speak about which fetches an action performs. -/
structure FetchCall where
  index : Nat
  term : Option String
deriving DecidableEq

/-- The forkJoin over the getPlanetsPortion observables for the listed
    indices: every fetch succeeds and the results are collected in order
    (paired with their indices, as portionIndexes pairs them in the
    source), or any single failure fails the whole join. -/
def fetchPortions (f : Fetcher) (term : Option String) : List Nat → Option (List (Nat × List Planet))
  | [] => some []
  | i :: rest =>
    match f i term with
    | none => none
    | some portion => (fetchPortions f term rest).map (fun l => (i, portion.results) :: l)

/-- The merge loop of makeNewStateObservable: for each fetched pair,
    baseState.memoizedPortions[index] = portion.results; entries not
    fetched keep their previous value. -/
def mergePortions (old : Nat → Option (List Planet)) (fetched : List (Nat × List Planet)) :
    Nat → Option (List Planet) :=
  fun j =>
    match fetched.lookup j with
    | some rs => some rs
    | none => old j

/-- The portionIndexes accumulator of makeNewStateObservable: the indices
    in the resolved range whose portion is absent from memoizedPortions
    (the ones for which a request has to be made). -/
def missingIndexes (baseState : State) (c p : Nat) : List Nat :=
  (resolvedIndexesOf baseState.pageSize p c).filter
    (fun i => (baseState.memoizedPortions i).isNone)

/-- PlanetsStoreService.makeNewStateObservable(baseState): returns the
    state with memoizedPortions completed for its page, together with the
    list of getPlanetsPortion calls it issued.  Mirrors the source: early
    return when count = 0; collect the indices in the resolved range whose
    portion is missing; early return when none are missing; otherwise
    forkJoin the fetches, merge on success, or produce
    errorStateObservable on failure (catchError).  The final fallback
    (count or page unset) is unreachable from the call sites - __search
    sets both before calling, and __newPage / __changePageSize reject
    initial states, whose successors all carry both fields - and returns
    the state unchanged. -/
def makeNewStateObservable (f : Fetcher) (baseState : State) : State × List FetchCall :=
  match baseState.count, baseState.page with
  | some c, some p =>
    if c = 0 then (baseState, [])
    else
      let portionIndexes := missingIndexes baseState c p
      let calls := portionIndexes.map (fun i => FetchCall.mk i baseState.searchTerm)
      if portionIndexes.isEmpty then (baseState, [])
      else
        match fetchPortions f baseState.searchTerm portionIndexes with
        | some fetched =>
          ({ baseState with
              memoizedPortions := mergePortions baseState.memoizedPortions fetched }, calls)
        | none => (errorStateObservable, calls)
  | _, _ => (baseState, [])

/-- PlanetsStoreService.__search(state, searchTerm): clear the flags, fetch
    portion 1 for the term; on success set searchTerm, page = 1, count from
    the portion, reset the memoized portions, store portion 1 when count is
    positive (the source's conditional slot-1 store is expressed as one
    table update guarded by count > 0), and complete the state; on failure
    produce errorStateObservable (catchError). -/
def search__ (f : Fetcher) (state : State) (searchTerm : String) : State × List FetchCall :=
  let call1 : FetchCall := { index := 1, term := some searchTerm }
  let state1 := { state with error := false, initial := false }
  match f 1 (some searchTerm) with
  | none => (errorStateObservable, [call1])
  | some portion =>
    let state2 := { state1 with
      searchTerm := some searchTerm
      page := some 1
      count := some portion.count }
    let state3 := state2.resetMemoizedPortions
    let state4 := { state3 with memoizedPortions := fun i =>
        if portion.count > 0 ∧ i = 1 then some portion.results
        else state3.memoizedPortions i }
    let result := makeNewStateObservable f state4
    (result.1, call1 :: result.2)

/-- PlanetsStoreService.__newPage(state, page): reject error and initial
    states with errorStateObservable (and no fetch); clamp a page beyond
    pagesCount() to 1; set the page and complete the state. -/
def newPage__ (f : Fetcher) (state : State) (page : Nat) : State × List FetchCall :=
  if state.error || state.initial then (errorStateObservable, [])
  else
    let page1 := if page > state.pagesCount then 1 else page
    makeNewStateObservable f { state with page := some page1 }

/-- PlanetsStoreService.__changePageSize(state, pageSize): reject error
    and initial states with errorStateObservable (and no fetch); set the
    page size, reset page to 1, and complete the state. -/
def changePageSize__ (f : Fetcher) (state : State) (pageSize : Nat) : State × List FetchCall :=
  if state.error || state.initial then (errorStateObservable, [])
  else
    makeNewStateObservable f { state with pageSize := pageSize, page := some 1 }

/-- The Action enum together with its payload (the payload field of an
    Event, typed per action). -/
inductive Action where
  | SEARCH (term : String)
  | NEW_PAGE (page : Nat)
  | CHANGE_PAGE_SIZE (size : Nat)

/-- The Event interface: a requested action with the state the caller
    attached when dispatching (the state argument of the public search /
    newPage / changePageSize methods). -/
structure Event where
  action : Action
  state : State

/-- The switchMap projection of initEventListenerSubscription: copy the
    event's state and run the handler selected by the action.  The result
    is the state the pipeline would publish for this event, together with
    the fetch calls made. -/
def processEvent (f : Fetcher) (event : Event) : State × List FetchCall :=
  let state := event.state.copyOf
  match event.action with
  | .SEARCH term => search__ f state term
  | .NEW_PAGE p => newPage__ f state p
  | .CHANGE_PAGE_SIZE n => changePageSize__ f state n

/-- The states that ever appear on the state stream of the service:
    the initial BehaviorSubject value, and the outcome of each processed
    event.  Components dispatch events carrying states they received from
    this same stream (results.component.ts and settings pass this.state
    from their subscription), so the event's attached state is itself a
    published one; the fetch outcomes may differ from step to step. -/
inductive Published : State → Prop where
  | base : Published initialState
  | step (f : Fetcher) (a : Action) {s : State} (hs : Published s) :
      Published (processEvent f { action := a, state := s }).1

/-! Supporting lemmas about the portion join and the resolution step. -/

theorem fetchPortions_lookup {f : Fetcher} {term : Option String} :
    ∀ {idxs : List Nat} {l : List (Nat × List Planet)},
      fetchPortions f term idxs = some l → ∀ i ∈ idxs, ∃ rs, l.lookup i = some rs := by
  intro idxs
  induction idxs with
  | nil => intro l _ i hi; cases hi
  | cons a rest ih =>
    intro l hl i hi
    unfold fetchPortions at hl
    cases hfa : f a term with
    | none => rw [hfa] at hl; cases hl
    | some portion =>
      rw [hfa] at hl
      cases hrest : fetchPortions f term rest with
      | none => rw [hrest] at hl; cases hl
      | some l2 =>
        rw [hrest] at hl
        injection hl with hl
        subst hl
        rcases List.mem_cons.mp hi with hia | hirest
        · subst hia
          exact ⟨portion.results, by simp [List.lookup]⟩
        · by_cases hai : i = a
          · subst hai
            exact ⟨portion.results, by simp [List.lookup]⟩
          · rcases ih hrest i hirest with ⟨rs, hrs⟩
            refine ⟨rs, ?_⟩
            simp only [List.lookup]
            rw [show (i == a) = false from beq_eq_false_iff_ne.mpr hai]
            exact hrs

theorem fetchPortions_sound {f : Fetcher} {term : Option String} :
    ∀ {idxs : List Nat} {l : List (Nat × List Planet)},
      fetchPortions f term idxs = some l →
      ∀ pr ∈ l, ∃ por, f pr.1 term = some por ∧ pr.2 = por.results := by
  intro idxs
  induction idxs with
  | nil =>
    intro l hl pr hpr
    unfold fetchPortions at hl
    cases hl
    cases hpr
  | cons a rest ih =>
    intro l hl pr hpr
    unfold fetchPortions at hl
    cases hfa : f a term with
    | none => rw [hfa] at hl; cases hl
    | some portion =>
      rw [hfa] at hl
      cases hrest : fetchPortions f term rest with
      | none => rw [hrest] at hl; cases hl
      | some l2 =>
        rw [hrest] at hl
        injection hl with hl
        subst hl
        rcases List.mem_cons.mp hpr with hpa | hptail
        · subst hpa
          exact ⟨portion, hfa, rfl⟩
        · exact ih hrest pr hptail

/-- Unfolding equation of the resolution step when count or page is
    unset. -/
theorem makeNewState_unset {f : Fetcher} {st : State}
    (h : st.count = none ∨ st.page = none) :
    makeNewStateObservable f st = (st, []) := by
  unfold makeNewStateObservable
  rcases h with h | h
  · rw [h]
  · rw [h]
    cases st.count <;> rfl

/-- Unfolding equation of the resolution step when count = 0. -/
theorem makeNewState_zero {f : Fetcher} {st : State} {p : Nat}
    (hc : st.count = some 0) (hp : st.page = some p) :
    makeNewStateObservable f st = (st, []) := by
  unfold makeNewStateObservable
  rw [hc, hp]
  dsimp only
  rw [if_pos rfl]

/-- Unfolding equation of the resolution step for a positive count. -/
theorem makeNewState_pos {f : Fetcher} {st : State} {c p : Nat}
    (hc : st.count = some c) (hp : st.page = some p) (hc0 : c ≠ 0) :
    makeNewStateObservable f st =
      (if (missingIndexes st c p).isEmpty then (st, [])
       else
         match fetchPortions f st.searchTerm (missingIndexes st c p) with
         | some fetched =>
           ({ st with memoizedPortions := mergePortions st.memoizedPortions fetched },
             (missingIndexes st c p).map (fun i => FetchCall.mk i st.searchTerm))
         | none =>
           (errorStateObservable,
             (missingIndexes st c p).map (fun i => FetchCall.mk i st.searchTerm))) := by
  unfold makeNewStateObservable
  rw [hc, hp]
  dsimp only
  rw [if_neg hc0]

/-- On success (result not flagged error), the resolution step only fills
    the memoizedPortions table: all other fields pass through unchanged. -/
theorem makeNewState_fields (f : Fetcher) (st : State) :
    (makeNewStateObservable f st).1 = errorStateObservable ∨
    ((makeNewStateObservable f st).1.pageSize = st.pageSize ∧
     (makeNewStateObservable f st).1.searchTerm = st.searchTerm ∧
     (makeNewStateObservable f st).1.page = st.page ∧
     (makeNewStateObservable f st).1.count = st.count ∧
     (makeNewStateObservable f st).1.error = st.error ∧
     (makeNewStateObservable f st).1.initial = st.initial) := by
  cases hc : st.count with
  | none =>
    rw [makeNewState_unset (Or.inl hc)]
    right; exact ⟨rfl, rfl, rfl, hc, rfl, rfl⟩
  | some c =>
    cases hp : st.page with
    | none =>
      rw [makeNewState_unset (Or.inr hp)]
      right; exact ⟨rfl, rfl, hp, hc, rfl, rfl⟩
    | some p =>
      by_cases hc0 : c = 0
      · subst hc0
        rw [makeNewState_zero hc hp]
        right; exact ⟨rfl, rfl, hp, hc, rfl, rfl⟩
      · rw [makeNewState_pos hc hp hc0]
        by_cases hemp : (missingIndexes st c p).isEmpty
        · rw [if_pos hemp]
          right; exact ⟨rfl, rfl, hp, hc, rfl, rfl⟩
        · rw [if_neg hemp]
          cases hfp : fetchPortions f st.searchTerm (missingIndexes st c p) with
          | none => left; rfl
          | some fetched => right; exact ⟨rfl, rfl, hp, hc, rfl, rfl⟩

theorem errorStateObservable_error : errorStateObservable.error = true := rfl

/-- On success, the resolution step keeps the page of the state it was
    given. -/
theorem makeNewState_page {f : Fetcher} {st : State}
    (hok : (makeNewStateObservable f st).1.error = false) :
    (makeNewStateObservable f st).1.page = st.page := by
  rcases makeNewState_fields f st with herr | hfields
  · rw [herr] at hok
    cases hok
  · exact hfields.2.2.1

/-- On success, every portion index in the resolved range of the given
    state is present in the resulting memoizedPortions table. -/
theorem makeNewState_covers {f : Fetcher} {st : State} {c p : Nat}
    (hc : st.count = some c) (hp : st.page = some p) (hc0 : c ≠ 0)
    (hok : (makeNewStateObservable f st).1.error = false) :
    ∀ i ∈ resolvedIndexesOf st.pageSize p c,
      ((makeNewStateObservable f st).1.memoizedPortions i).isSome := by
  intro i hi
  rw [makeNewState_pos hc hp hc0] at hok ⊢
  by_cases hemp : (missingIndexes st c p).isEmpty
  · rw [if_pos hemp]
    cases hmo : st.memoizedPortions i with
    | some l => rfl
    | none =>
      exfalso
      have hmem : i ∈ missingIndexes st c p :=
        List.mem_filter.mpr ⟨hi, by simp [hmo]⟩
      rw [List.isEmpty_iff] at hemp
      rw [hemp] at hmem
      cases hmem
  · rw [if_neg hemp] at hok ⊢
    cases hfp : fetchPortions f st.searchTerm (missingIndexes st c p) with
    | none =>
      rw [hfp] at hok
      cases hok
    | some fetched =>
      show (mergePortions st.memoizedPortions fetched i).isSome = true
      unfold mergePortions
      cases hlk : fetched.lookup i with
      | some rs => rfl
      | none =>
        cases hmo : st.memoizedPortions i with
        | some l => rfl
        | none =>
          exfalso
          have hmem : i ∈ missingIndexes st c p :=
            List.mem_filter.mpr ⟨hi, by simp [hmo]⟩
          rcases fetchPortions_lookup hfp i hmem with ⟨rs, hrs⟩
          rw [hlk] at hrs
          cases hrs

theorem lookup_mem_pair :
    ∀ {l : List (Nat × List Planet)} {j : Nat} {rs : List Planet},
      l.lookup j = some rs → (j, rs) ∈ l := by
  intro l
  induction l with
  | nil => intro j rs h; cases h
  | cons kv t ih =>
    intro j rs h
    simp only [List.lookup] at h
    by_cases hk : j = kv.1
    · rw [show (j == kv.1) = true from beq_iff_eq.mpr hk] at h
      cases h
      exact List.mem_cons.mpr (Or.inl (by rw [hk]))
    · rw [show (j == kv.1) = false from beq_eq_false_iff_ne.mpr hk] at h
      exact List.mem_cons.mpr (Or.inr (ih h))

/-! Concrete sample states used by witnesses and counterexamples. -/

/-- A concrete valid state with pageSize 5 (three results, portion 1
    cached), as a caller could hold after browsing with page size 5. -/
def samplePageSize5 : State :=
  { pageSize := 5
    searchTerm := some "a"
    page := some 1
    count := some 3
    error := false
    initial := false
    memoizedPortions := fun i => if i = 1 then some [0, 1, 2] else none }

/-- A concrete valid state with pageSize 10, 23 results and portions
    1 to 3 cached. -/
def sampleCached : State :=
  { pageSize := 10
    searchTerm := some "a"
    page := some 2
    count := some 23
    error := false
    initial := false
    memoizedPortions := fun i =>
      if 1 ≤ i ∧ i ≤ 3 then some (List.range 10) else none }

/-- C6: for every GoToPage or ChangePageSize action dispatched while the
    current state has error = true or initial = true, the engine publishes
    a state with error = true (errorStateObservable) and performs no
    portion fetch at all (the call list is empty). -/
theorem c6_precondition_reject_no_fetch (f : Fetcher) (s : State) (p n : Nat)
    (h : s.error = true ∨ s.initial = true) :
    processEvent f { action := .NEW_PAGE p, state := s } = (errorStateObservable, []) ∧
    processEvent f { action := .CHANGE_PAGE_SIZE n, state := s } = (errorStateObservable, []) ∧
    errorStateObservable.error = true := by
  have hb : (s.error || s.initial) = true := by
    rcases h with h | h <;> simp [h]
  refine ⟨?_, ?_, rfl⟩
  · show newPage__ f s.copyOf p = (errorStateObservable, [])
    rw [State.copyOf_eq]
    unfold newPage__
    rw [hb]
    rfl
  · show changePageSize__ f s.copyOf n = (errorStateObservable, [])
    rw [State.copyOf_eq]
    unfold changePageSize__
    rw [hb]
    rfl

/-- Witness for C6 at a concrete rejected state (errorStateObservable
    itself, which carries error = true). -/
theorem c6_precondition_reject_no_fetch_witness :
    (errorStateObservable.error = true ∨ errorStateObservable.initial = true) ∧
    (processEvent (fun _ _ => none)
        { action := Action.NEW_PAGE 2, state := errorStateObservable } =
      (errorStateObservable, []) ∧
    processEvent (fun _ _ => none)
        { action := Action.CHANGE_PAGE_SIZE 5, state := errorStateObservable } =
      (errorStateObservable, []) ∧
    errorStateObservable.error = true) :=
  ⟨Or.inl rfl,
    c6_precondition_reject_no_fetch (fun _ _ => none) errorStateObservable 2 5 (Or.inl rfl)⟩

/-- C7: GoToPage(p) on a valid (non-error, non-initial) state with p
    beyond pagesCount() yields page 1, not the last page, whenever the
    resolution succeeds (the published state is not flagged error). -/
theorem c7_goToPage_overflow_clamps_to_one (f : Fetcher) (s : State) (p : Nat)
    (hne : s.error = false) (hni : s.initial = false)
    (hover : p > s.pagesCount)
    (hok : (processEvent f { action := .NEW_PAGE p, state := s }).1.error = false) :
    (processEvent f { action := .NEW_PAGE p, state := s }).1.page = some 1 := by
  have hpe : processEvent f { action := Action.NEW_PAGE p, state := s } =
      makeNewStateObservable f { s with page := some 1 } := by
    show newPage__ f s.copyOf p = _
    rw [State.copyOf_eq]
    unfold newPage__
    rw [hne, hni]
    simp only [Bool.or_self, Bool.false_eq_true, if_false]
    rw [if_pos hover]
  rw [hpe] at hok ⊢
  rw [makeNewState_page hok]

/-- Witness for C7: page 5 requested while pagesCount() = 3 yields
    page 1. -/
theorem c7_goToPage_overflow_clamps_to_one_witness :
    sampleCached.error = false ∧ sampleCached.initial = false ∧
    5 > sampleCached.pagesCount ∧
    (processEvent (fun _ _ => none)
      { action := Action.NEW_PAGE 5, state := sampleCached }).1.error = false ∧
    (processEvent (fun _ _ => none)
      { action := Action.NEW_PAGE 5, state := sampleCached }).1.page = some 1 :=
  ⟨rfl, rfl, by decide, by decide,
    c7_goToPage_overflow_clamps_to_one (fun _ _ => none) sampleCached 5 rfl rfl
      (by decide) (by decide)⟩

/-- C9: when every portion needed for the current page is already in the
    memoizedPortions cache, re-requesting that same page issues zero
    fetches and the new state is resolved entirely from the cache (the
    pipeline returns the state itself with an empty call list). -/
theorem c9_cache_hit_no_fetch (f : Fetcher) (s : State) (c p : Nat)
    (hne : s.error = false) (hni : s.initial = false)
    (hc : s.count = some c) (hp : s.page = some p)
    (hple : p ≤ s.pagesCount)
    (hcached : ∀ i ∈ resolvedIndexesOf s.pageSize p c, (s.memoizedPortions i).isSome) :
    processEvent f { action := .NEW_PAGE p, state := s } = (s, []) := by
  obtain ⟨ps, t, pg, cnt, e, ini, m⟩ := s
  dsimp only at hne hni hc hp hcached ⊢
  subst hne
  subst hni
  subst hc
  subst hp
  show newPage__ f (State.copyOf _) p = _
  rw [State.copyOf_eq]
  unfold newPage__
  simp only [Bool.or_self, Bool.false_eq_true, if_false]
  rw [if_neg (not_lt.mpr hple)]
  by_cases hc0 : c = 0
  · subst hc0
    exact makeNewState_zero rfl rfl
  · rw [makeNewState_pos rfl rfl hc0]
    have hemp : (missingIndexes
        { pageSize := ps, searchTerm := t, page := some p, count := some c,
          error := false, initial := false, memoizedPortions := m } c p).isEmpty = true := by
      rw [List.isEmpty_iff]
      unfold missingIndexes
      rw [List.filter_eq_nil_iff]
      intro i hi
      have hcc := hcached i hi
      cases hmo : m i with
      | none => rw [hmo] at hcc; cases hcc
      | some l => simp [hmo]
    rw [if_pos hemp]

/-- Witness for C9: re-requesting page 2 of a state with portion 2 cached
    issues no fetch and returns the state unchanged. -/
theorem c9_cache_hit_no_fetch_witness :
    sampleCached.error = false ∧ sampleCached.initial = false ∧
    sampleCached.count = some 23 ∧ sampleCached.page = some 2 ∧
    2 ≤ sampleCached.pagesCount ∧
    (∀ i ∈ resolvedIndexesOf sampleCached.pageSize 2 23,
      (sampleCached.memoizedPortions i).isSome) ∧
    processEvent (fun _ _ => none)
        { action := Action.NEW_PAGE 2, state := sampleCached } =
      (sampleCached, []) :=
  ⟨rfl, rfl, rfl, rfl, by decide, by decide,
    c9_cache_hit_no_fetch (fun _ _ => none) sampleCached 23 2 rfl rfl rfl rfl
      (by decide) (by decide)⟩

/-- Amended C5: when the portion-1 fetch of Search(term) fails, the
    published state is errorStateObservable: error = true with pageSize 25
    (the pageSize of initialState), regardless of the pageSize of the
    state the action was applied to. -/
theorem c5_search_failure_default_error_state (f : Fetcher) (s : State) (t : String)
    (hf : f 1 (some t) = none) :
    processEvent f { action := .SEARCH t, state := s } =
      (errorStateObservable, [{ index := 1, term := some t }]) ∧
    errorStateObservable.error = true ∧
    errorStateObservable.pageSize = initialState.pageSize ∧
    initialState.pageSize = 25 := by
  refine ⟨?_, rfl, rfl, rfl⟩
  show search__ f s.copyOf t = _
  rw [State.copyOf_eq]
  unfold search__
  rw [hf]

/-- Witness for the amended C5 at a concrete failing fetch. -/
theorem c5_search_failure_default_error_state_witness :
    ((fun _ _ => none : Fetcher) 1 (some "b") = none) ∧
    (processEvent (fun _ _ => none)
        { action := Action.SEARCH "b", state := samplePageSize5 } =
      (errorStateObservable, [{ index := 1, term := some "b" }]) ∧
    errorStateObservable.error = true ∧
    errorStateObservable.pageSize = initialState.pageSize ∧
    initialState.pageSize = 25) :=
  ⟨rfl, c5_search_failure_default_error_state (fun _ _ => none) samplePageSize5 "b" rfl⟩

/-- Counterexample to C5 as stated: a Search dispatched on a state with
    pageSize 5 fails, and the published state has error = true but
    pageSize 25 - the pageSize of the state the action was applied to is
    not preserved. -/
theorem c5_search_failure_pageSize_not_preserved_cex :
    samplePageSize5.pageSize = 5 ∧
    (processEvent (fun _ _ => none)
      { action := Action.SEARCH "b", state := samplePageSize5 }).1.error = true ∧
    (processEvent (fun _ _ => none)
      { action := Action.SEARCH "b", state := samplePageSize5 }).1.pageSize = 25 ∧
    (processEvent (fun _ _ => none)
        { action := Action.SEARCH "b", state := samplePageSize5 }).1.pageSize ≠
      samplePageSize5.pageSize := by
  exact ⟨rfl, rfl, rfl, by decide⟩

/-- pagesCount() under a present count. -/
theorem pagesCount_eq {s : State} {c : Nat} (hc : s.count = some c) :
    s.pagesCount = (c + s.pageSize - 1) / s.pageSize := by
  unfold State.pagesCount
  rw [hc]

/-- Under the validity bounds, the first resolved portion index is at most
    the last one (the loop is nonempty). -/
theorem begPortion_le_endPortion {ps p c : Nat}
    (_hc0 : 0 < c) (hps : 0 < ps) (hp1 : 1 ≤ p)
    (hple : ps * p ≤ c + ps - 1) :
    begPortionIndexOf ps p ≤ endPortionIndexOf ps p c := by
  unfold begPortionIndexOf endPortionIndexOf begIndexOf endIndexOf
  have hmul : ps * (p - 1) + ps = ps * p := by
    cases p with
    | zero => omega
    | succ q =>
      simp only [Nat.succ_sub_one, Nat.mul_succ]
  have hlt : ps * (p - 1) < min (ps * p) c := by
    rcases Nat.le_total (ps * p) c with h | h
    · rw [min_eq_left h]
      omega
    · rw [min_eq_right h]
      omega
  have hle : ps * (p - 1) ≤ min (ps * p) c - 1 := by omega
  have hdiv : ps * (p - 1) / 10 ≤ (min (ps * p) c - 1) / 10 :=
    Nat.div_le_div_right hle
  omega

/-- C2: for a valid state (count > 0, pageSize > 0, 1 <= page <=
    pagesCount()), the portion indices the resolution step walks - each
    taken from the cache or fetched - form exactly the integer interval
    from floor(pageSize*(page-1)/10)+1 to
    floor((min(pageSize*page, count)-1)/10)+1, computed via
    begIndex = pageSize*(page-1) and endIndex = min(pageSize*page, count);
    and the fetch calls the step issues are exactly the missing indices of
    that interval. -/
theorem c2_portion_mapping_correct (f : Fetcher) (s : State) (c p : Nat)
    (hc : s.count = some c) (hp : s.page = some p)
    (hc0 : 0 < c) (hps : 0 < s.pageSize) (hp1 : 1 ≤ p) (hple : p ≤ s.pagesCount) :
    (∀ i, i ∈ resolvedIndexesOf s.pageSize p c ↔
      (s.pageSize * (p - 1) / 10 + 1 ≤ i ∧
       i ≤ (min (s.pageSize * p) c - 1) / 10 + 1)) ∧
    (makeNewStateObservable f s).2 =
      ((resolvedIndexesOf s.pageSize p c).filter
        (fun i => (s.memoizedPortions i).isNone)).map
        (fun i => FetchCall.mk i s.searchTerm) := by
  have hple2 : s.pageSize * p ≤ c + s.pageSize - 1 := by
    rw [pagesCount_eq hc] at hple
    have h2 := (Nat.le_div_iff_mul_le hps).mp hple
    rw [Nat.mul_comm] at h2
    exact h2
  have hble : begPortionIndexOf s.pageSize p ≤ endPortionIndexOf s.pageSize p c :=
    begPortion_le_endPortion hc0 hps hp1 hple2
  constructor
  · intro i
    unfold resolvedIndexesOf
    rw [List.mem_range'_1]
    show _ ↔ (begPortionIndexOf s.pageSize p ≤ i ∧ i ≤ endPortionIndexOf s.pageSize p c)
    omega
  · rw [makeNewState_pos hc hp (by omega)]
    by_cases hemp : (missingIndexes s c p).isEmpty
    · rw [if_pos hemp]
      rw [List.isEmpty_iff] at hemp
      unfold missingIndexes at hemp
      rw [hemp]
      rfl
    · rw [if_neg hemp]
      cases hfp : fetchPortions f s.searchTerm (missingIndexes s c p) with
      | some fetched => rfl
      | none => rfl

/-- Witness for C2 at the scenario of the spec: count 23, pageSize 10,
    page 2 resolves exactly portion 2. -/
theorem c2_portion_mapping_correct_witness :
    sampleCached.count = some 23 ∧ sampleCached.page = some 2 ∧
    0 < (23 : Nat) ∧ 0 < sampleCached.pageSize ∧ 1 ≤ (2 : Nat) ∧
    2 ≤ sampleCached.pagesCount ∧
    ((∀ i, i ∈ resolvedIndexesOf sampleCached.pageSize 2 23 ↔
      (sampleCached.pageSize * (2 - 1) / 10 + 1 ≤ i ∧
       i ≤ (min (sampleCached.pageSize * 2) 23 - 1) / 10 + 1)) ∧
    (makeNewStateObservable (fun _ _ => none) sampleCached).2 =
      ((resolvedIndexesOf sampleCached.pageSize 2 23).filter
        (fun i => (sampleCached.memoizedPortions i).isNone)).map
        (fun i => FetchCall.mk i sampleCached.searchTerm)) :=
  ⟨rfl, rfl, by decide, by decide, by decide, by decide,
    c2_portion_mapping_correct (fun _ _ => none) sampleCached 23 2 rfl rfl
      (by decide) (by decide) (by decide) (by decide)⟩

/-- Invariant of every state on the published stream: a state not flagged
    error or initial carries a count and a page, and (when count is
    positive) a portion cache covering the whole resolved range of its
    page. -/
def StateInv (s : State) : Prop :=
  s.error = false → s.initial = false →
    ∃ c p, s.count = some c ∧ s.page = some p ∧
      (c ≠ 0 → ∀ i ∈ resolvedIndexesOf s.pageSize p c, (s.memoizedPortions i).isSome)

theorem stateInv_error : StateInv errorStateObservable := by
  intro he _
  exact absurd he (by decide)

/-- The resolution step establishes the invariant for any state whose
    count and page are set. -/
theorem makeNewState_inv {f : Fetcher} {st : State} {c p : Nat}
    (hc : st.count = some c) (hp : st.page = some p) :
    StateInv (makeNewStateObservable f st).1 := by
  intro he _
  rcases makeNewState_fields f st with herr | hfields
  · rw [herr] at he
    exact absurd he (by decide)
  · refine ⟨c, p, by rw [hfields.2.2.2.1, hc], by rw [hfields.2.2.1, hp], ?_⟩
    intro hc0 i hi2
    rw [hfields.1] at hi2
    exact makeNewState_covers hc hp hc0 he i hi2

/-- Every event-processing outcome satisfies the invariant, given that
    the event carries a state satisfying it. -/
theorem processEvent_inv (f : Fetcher) (e : Event) (hinv : StateInv e.state) :
    StateInv (processEvent f e).1 := by
  obtain ⟨a, s⟩ := e
  cases a with
  | SEARCH term =>
    show StateInv (search__ f (State.copyOf s) term).1
    rw [State.copyOf_eq]
    unfold search__
    cases hf : f 1 (some term) with
    | none => exact stateInv_error
    | some portion =>
      dsimp only
      exact makeNewState_inv rfl rfl
  | NEW_PAGE p =>
    show StateInv (newPage__ f (State.copyOf s) p).1
    rw [State.copyOf_eq]
    unfold newPage__
    split
    · exact stateInv_error
    · next hcond =>
      intro he hi
      have hne : s.error = false ∧ s.initial = false := by
        constructor
        · cases hse : s.error
          · rfl
          · exact absurd (by rw [hse]; rfl) hcond
        · cases hsi : s.initial
          · rfl
          · exact absurd (by rw [hsi]; simp) hcond
      obtain ⟨c, p0, hcc, hpp, hcov⟩ := hinv hne.1 hne.2
      exact @makeNewState_inv f
        { s with page := some (if p > s.pagesCount then 1 else p) } c
        (if p > s.pagesCount then 1 else p) hcc rfl he hi
  | CHANGE_PAGE_SIZE n =>
    show StateInv (changePageSize__ f (State.copyOf s) n).1
    rw [State.copyOf_eq]
    unfold changePageSize__
    split
    · exact stateInv_error
    · next hcond =>
      intro he hi
      have hne : s.error = false ∧ s.initial = false := by
        constructor
        · cases hse : s.error
          · rfl
          · exact absurd (by rw [hse]; rfl) hcond
        · cases hsi : s.initial
          · rfl
          · exact absurd (by rw [hsi]; simp) hcond
      obtain ⟨c, p0, hcc, hpp, hcov⟩ := hinv hne.1 hne.2
      exact @makeNewState_inv f
        { s with pageSize := n, page := some 1 } c 1 hcc rfl he hi

theorem published_inv {s : State} (h : Published s) : StateInv s := by
  induction h with
  | base =>
    intro _ hi
    exact absurd hi (by decide)
  | step f a hs ih => exact processEvent_inv f _ ih

/-- A collection over indices whose portions are all present succeeds. -/
theorem collectPortions_isSome {mem : Nat → Option (List Planet)} :
    ∀ {idxs : List Nat}, (∀ i ∈ idxs, (mem i).isSome) →
      (collectPortions mem idxs).isSome := by
  intro idxs
  induction idxs with
  | nil => intro _; rfl
  | cons a rest ih =>
    intro h
    unfold collectPortions
    cases hma : mem a with
    | none =>
      have := h a (List.mem_cons_self a rest)
      rw [hma] at this
      cases this
    | some portion =>
      have hrest := ih (fun i hi => h i (List.mem_cons_of_mem a hi))
      cases hcr : collectPortions mem rest with
      | none =>
        rw [hcr] at hrest
        cases hrest
      | some l => rfl

/-- C4: every state published on the state stream with error = false and
    initial = false has every portion of the resolved range of its page
    present in memoizedPortions, so planetList() derived from it never
    reaches the missing-portion throw branch. -/
theorem c4_published_planetList_total {s : State} (h : Published s)
    (hne : s.error = false) (hni : s.initial = false) :
    (s.planetList).isSome := by
  obtain ⟨c, p, hc, hp, hcov⟩ := published_inv h hne hni
  unfold State.planetList
  rw [hc, hp]
  dsimp only
  by_cases hc0 : c = 0
  · rw [if_pos hc0]
    rfl
  · rw [if_neg hc0]
    have hsome := collectPortions_isSome (hcov hc0)
    cases hcp : collectPortions s.memoizedPortions (resolvedIndexesOf s.pageSize p c) with
    | none =>
      rw [hcp] at hsome
      cases hsome
    | some l => rfl

/-- Witness for C4: the state published by a successful search of a
    three-record catalog is on the stream, is not flagged, and yields a
    planet list. -/
theorem c4_published_planetList_total_witness :
    Published (processEvent (fun _ _ => some { count := 3, results := [7, 8, 9] })
      { action := Action.SEARCH "a", state := initialState }).1 ∧
    (processEvent (fun _ _ => some { count := 3, results := [7, 8, 9] })
      { action := Action.SEARCH "a", state := initialState }).1.error = false ∧
    (processEvent (fun _ _ => some { count := 3, results := [7, 8, 9] })
      { action := Action.SEARCH "a", state := initialState }).1.initial = false ∧
    ((processEvent (fun _ _ => some { count := 3, results := [7, 8, 9] })
      { action := Action.SEARCH "a", state := initialState }).1.planetList).isSome :=
  ⟨Published.step _ _ Published.base, by decide, by decide,
    c4_published_planetList_total (Published.step _ _ Published.base)
      (by decide) (by decide)⟩

/-! The event pipeline over time: initEventListenerSubscription pipes
    eventListener$ through switchMap and publishes each surviving inner
    result through tap into state$. -/

/-- One dispatched action as seen on the event pipeline: the instant the
    component called the service method (time), the instant the inner
    portion-resolution observable would deliver its state (resolveTime),
    the action, and the state the caller attached to the event. -/
structure TimedDispatch where
  time : Nat
  resolveTime : Nat
  action : Action
  state : State

/-- Film of the switchMap pipeline over a dispatch list ordered by
    dispatch time: each event's inner observable is subscribed on arrival
    and unsubscribed - its eventual state discarded, never reaching the
    tap that feeds state$ - as soon as the next outer event arrives.  An
    inner result is published only when it resolves no later than the
    next dispatch, or when it belongs to the last event. -/
def switchRun (f : Fetcher) : List TimedDispatch → List State
  | [] => []
  | [d] => [(processEvent f { action := d.action, state := d.state }).1]
  | d :: d2 :: rest =>
    if d2.time < d.resolveTime then switchRun f (d2 :: rest)
    else (processEvent f { action := d.action, state := d.state }).1 ::
      switchRun f (d2 :: rest)

/-- The positions (indices into the dispatch list) of the events whose
    results reach state$, in publication order; same recursion as
    switchRun. -/
def switchEmitsIdx : List TimedDispatch → List Nat
  | [] => []
  | [_] => [0]
  | d :: d2 :: rest =>
    if d2.time < d.resolveTime then (switchEmitsIdx (d2 :: rest)).map (fun k => k + 1)
    else 0 :: (switchEmitsIdx (d2 :: rest)).map (fun k => k + 1)

/-- The published sequence is the processed outcome of each emitting
    dispatch, each derived from that dispatch's own attached state. -/
theorem switchRun_eq_emits (f : Fetcher) :
    ∀ ds : List TimedDispatch,
      switchRun f ds = (switchEmitsIdx ds).filterMap
        (fun k => (ds.get? k).map
          (fun d => (processEvent f { action := d.action, state := d.state }).1))
  | [] => rfl
  | [d] => rfl
  | d :: d2 :: rest => by
    unfold switchRun switchEmitsIdx
    by_cases hlt : d2.time < d.resolveTime
    · rw [if_pos hlt, if_pos hlt]
      rw [switchRun_eq_emits f (d2 :: rest)]
      rw [List.filterMap_map]
      rfl
    · rw [if_neg hlt, if_neg hlt]
      rw [switchRun_eq_emits f (d2 :: rest)]
      rw [List.filterMap_cons, List.filterMap_map]
      rfl

/-- Every emitted index is a position of the dispatch list. -/
theorem switchEmitsIdx_lt :
    ∀ ds : List TimedDispatch, ∀ k ∈ switchEmitsIdx ds, k < ds.length
  | [] => by intro k hk; cases hk
  | [d] => by
    intro k hk
    rcases List.mem_singleton.mp hk with rfl
    simp
  | d :: d2 :: rest => by
    intro k hk
    unfold switchEmitsIdx at hk
    by_cases hlt : d2.time < d.resolveTime
    · rw [if_pos hlt] at hk
      rcases List.mem_map.mp hk with ⟨a, ha, rfl⟩
      have hlen := switchEmitsIdx_lt (d2 :: rest) a ha
      simp only [List.length_cons] at hlen ⊢
      omega
    · rw [if_neg hlt] at hk
      rcases List.mem_cons.mp hk with rfl | hk2
      · simp only [List.length_cons]
        omega
      · rcases List.mem_map.mp hk2 with ⟨a, ha, rfl⟩
        have hlen := switchEmitsIdx_lt (d2 :: rest) a ha
        simp only [List.length_cons] at hlen ⊢
        omega

/-- A dispatch whose successor arrives before it resolves never emits. -/
theorem switchEmitsIdx_not_mem :
    ∀ (ds : List TimedDispatch) (k : Nat) (dk dk1 : TimedDispatch),
      ds.get? k = some dk → ds.get? (k + 1) = some dk1 →
      dk1.time < dk.resolveTime → k ∉ switchEmitsIdx ds
  | [] => by intro k dk dk1 hk _ _ _; cases hk
  | [d] => by
    intro k dk dk1 _ hk1 _ _
    cases k with
    | zero => cases hk1
    | succ m => cases hk1
  | d :: d2 :: rest => by
    intro k dk dk1 hk hk1 hlt hmem
    cases k with
    | zero =>
      have hdk : d = dk := by injection hk
      have hdk1 : d2 = dk1 := by injection hk1
      unfold switchEmitsIdx at hmem
      rw [if_pos (by rw [hdk, hdk1]; exact hlt)] at hmem
      rcases List.mem_map.mp hmem with ⟨a, _, ha⟩
      omega
    | succ m =>
      have hnot := switchEmitsIdx_not_mem (d2 :: rest) m dk dk1 hk hk1 hlt
      unfold switchEmitsIdx at hmem
      by_cases hc : d2.time < d.resolveTime
      · rw [if_pos hc] at hmem
        rcases List.mem_map.mp hmem with ⟨a, ha, haeq⟩
        have : a = m := by omega
        subst this
        exact hnot ha
      · rw [if_neg hc] at hmem
        rcases List.mem_cons.mp hmem with h0 | hmem2
        · cases h0
        · rcases List.mem_map.mp hmem2 with ⟨a, ha, haeq⟩
          have : a = m := by omega
          subst this
          exact hnot ha

/-- The last dispatch always emits. -/
theorem switchEmitsIdx_last :
    ∀ ds : List TimedDispatch, ds ≠ [] → (ds.length - 1) ∈ switchEmitsIdx ds
  | [] => by intro h; exact absurd rfl h
  | [d] => by intro _; exact List.mem_singleton.mpr rfl
  | d :: d2 :: rest => by
    intro _
    have ih := switchEmitsIdx_last (d2 :: rest) (by simp)
    have hlen : (d :: d2 :: rest).length - 1 = ((d2 :: rest).length - 1) + 1 := by
      simp only [List.length_cons]
      omega
    unfold switchEmitsIdx
    by_cases hlt : d2.time < d.resolveTime
    · rw [if_pos hlt, hlen]
      exact List.mem_map.mpr ⟨(d2 :: rest).length - 1, ih, rfl⟩
    · rw [if_neg hlt, hlen]
      exact List.mem_cons.mpr (Or.inr (List.mem_map.mpr ⟨(d2 :: rest).length - 1, ih, rfl⟩))

/-- Emitted indices are strictly increasing: results reach state$ in
    dispatch order. -/
theorem switchEmitsIdx_chain :
    ∀ ds : List TimedDispatch, List.Chain' (· < ·) (switchEmitsIdx ds)
  | [] => List.chain'_nil
  | [_] => List.chain'_singleton _
  | d :: d2 :: rest => by
    have ih := switchEmitsIdx_chain (d2 :: rest)
    have hmap : List.Chain' (· < ·) ((switchEmitsIdx (d2 :: rest)).map (fun k => k + 1)) := by
      rw [List.chain'_map]
      exact ih.imp (fun h => by omega)
    unfold switchEmitsIdx
    by_cases hlt : d2.time < d.resolveTime
    · rw [if_pos hlt]
      exact hmap
    · rw [if_neg hlt]
      rw [List.chain'_cons']
      refine ⟨?_, hmap⟩
      intro y hy
      rcases List.mem_map.mp (List.mem_of_mem_head? hy) with ⟨a, _, rfl⟩
      omega

/-- Dispatch times are monotone along a time-ordered list. -/
theorem chain_time_mono {ds : List TimedDispatch}
    (hmono : List.Chain' (fun a b => a.time ≤ b.time) ds) :
    ∀ (b a : Nat) (da db : TimedDispatch), a ≤ b →
      ds.get? a = some da → ds.get? b = some db → da.time ≤ db.time := by
  intro b
  induction b with
  | zero =>
    intro a da db hab ha hb
    have : a = 0 := by omega
    subst this
    rw [ha] at hb
    injection hb with hb
    rw [hb]
  | succ n ih =>
    intro a da db hab ha hb
    by_cases heq : a = n + 1
    · subst heq
      rw [ha] at hb
      injection hb with hb
      rw [hb]
    · have han : a ≤ n := by omega
      have hb1 : n + 1 < ds.length := by
        by_contra hcon
        rw [List.get?_eq_none.mpr (by omega)] at hb
        cases hb
      have hnlt : n < ds.length := by omega
      have hdn : ds.get? n = some (ds.get ⟨n, hnlt⟩) := List.get?_eq_get hnlt
      have hadj := List.chain'_iff_get.mp hmono n (by omega)
      have hgetb : ds.get? (n + 1) = some (ds.get ⟨n + 1, hb1⟩) := List.get?_eq_get hb1
      rw [hb] at hgetb
      injection hgetb with hgetb
      have hstep : (ds.get ⟨n, hnlt⟩).time ≤ db.time := by
        rw [hgetb]
        exact hadj
      exact le_trans (ih a da (ds.get ⟨n, hnlt⟩) han ha hdn) hstep

/-- C1: switch-latest discipline of the event pipeline.  Over any
    time-ordered dispatch list, when a later action j is dispatched while
    action i's portion-resolution is still pending (before i resolves),
    i's resulting state is never published (i never emits).  Moreover the
    emitted indices are strictly increasing - an earlier action's state is
    never published after a later action's - the last dispatched action
    always emits and is the maximal emitter (its state is the final
    published one), and the published state sequence is exactly the
    processed outcome of the emitting dispatches. -/
theorem c1_switch_latest (f : Fetcher) (ds : List TimedDispatch)
    (hmono : List.Chain' (fun a b => a.time ≤ b.time) ds)
    (i j : Nat) (di dj : TimedDispatch)
    (hij : i < j)
    (hi : ds.get? i = some di) (hj : ds.get? j = some dj)
    (hpending : dj.time < di.resolveTime) :
    i ∉ switchEmitsIdx ds ∧
    List.Chain' (· < ·) (switchEmitsIdx ds) ∧
    (ds.length - 1) ∈ switchEmitsIdx ds ∧
    (∀ k ∈ switchEmitsIdx ds, k ≤ ds.length - 1) ∧
    switchRun f ds = (switchEmitsIdx ds).filterMap
      (fun k => (ds.get? k).map
        (fun d => (processEvent f { action := d.action, state := d.state }).1)) := by
  have hjlen : j < ds.length := by
    by_contra hcon
    rw [List.get?_eq_none.mpr (by omega)] at hj
    cases hj
  have hi1 : ∃ di1, ds.get? (i + 1) = some di1 := by
    cases hgi : ds.get? (i + 1) with
    | none =>
      rw [List.get?_eq_none] at hgi
      omega
    | some di1 => exact ⟨di1, rfl⟩
  obtain ⟨di1, hgi1⟩ := hi1
  have hmonoT : di1.time ≤ dj.time :=
    chain_time_mono hmono j (i + 1) di1 dj (by omega) hgi1 hj
  refine ⟨?_, switchEmitsIdx_chain ds, ?_, ?_, switchRun_eq_emits f ds⟩
  · exact switchEmitsIdx_not_mem ds i di di1 hi hgi1 (by omega)
  · apply switchEmitsIdx_last
    intro hnil
    rw [hnil] at hj
    cases hj
  · intro k hk
    have := switchEmitsIdx_lt ds k hk
    omega

/-- A valid browsing state over a 60-record catalog with every portion
    cached, used as the snapshot attached to the witness dispatches. -/
def sampleFull : State :=
  { pageSize := 10
    searchTerm := some "a"
    page := some 1
    count := some 60
    error := false
    initial := false
    memoizedPortions := fun i =>
      if 1 ≤ i ∧ i ≤ 6 then some (List.range 10) else none }

/-- First witness dispatch for C1: GoToPage(2) at time 0, resolving at
    time 10. -/
def c1d1 : TimedDispatch :=
  { time := 0, resolveTime := 10, action := Action.NEW_PAGE 2, state := sampleFull }

/-- Second witness dispatch for C1: GoToPage(3) at time 1, while the
    first is still pending. -/
def c1d2 : TimedDispatch :=
  { time := 1, resolveTime := 12, action := Action.NEW_PAGE 3, state := sampleFull }

/-- Witness for C1: GoToPage(2) then GoToPage(3) dispatched before the
    first resolves.  The first never emits; only the page-3 state is
    published, and it is the final published state. -/
theorem c1_switch_latest_witness :
    List.Chain' (fun a b => a.time ≤ b.time) [c1d1, c1d2] ∧
    (0 : Nat) < 1 ∧
    [c1d1, c1d2].get? 0 = some c1d1 ∧
    [c1d1, c1d2].get? 1 = some c1d2 ∧
    c1d2.time < c1d1.resolveTime ∧
    (0 ∉ switchEmitsIdx [c1d1, c1d2] ∧
     switchEmitsIdx [c1d1, c1d2] = [1] ∧
     (switchRun (fun _ _ => none) [c1d1, c1d2]).map State.page = [some 3]) := by
  refine ⟨List.chain'_cons.mpr ⟨by decide, List.chain'_singleton _⟩,
    by decide, rfl, rfl, by decide, ?_, by decide, by decide⟩
  exact (c1_switch_latest (fun _ _ => none) [c1d1, c1d2]
    (List.chain'_cons.mpr ⟨by decide, List.chain'_singleton _⟩) 0 1 c1d1 c1d2
    (by decide) rfl rfl (by decide)).1

/-- The whole PlanetsStoreService over time: state$ starts as a
    BehaviorSubject holding initialState; the constructor runs
    __search(initialState.copyOf(), '') and, at the instant subT when that
    search resolves, publishes its state and only then runs
    initEventListenerSubscription.  eventListener$ is a plain Subject: an
    event emitted while nobody is subscribed is lost, so dispatches before
    subT never enter the pipeline; the rest flow through switchMap. -/
def serviceRun (f : Fetcher) (subT : Nat) (ds : List TimedDispatch) : List State :=
  initialState ::
    (search__ f initialState.copyOf "").1 ::
      switchRun f (ds.filter (fun d => decide (subT ≤ d.time)))

/-- C10: a dispatch issued before the constructor's empty-term search
    completes (time < subT) is silently dropped: removing it from the
    dispatch history leaves the published sequence unchanged.  The
    dispatches at or after subT are processed normally: the run equals a
    run whose pipeline existed from time 0 fed exactly the dispatches at
    or after subT. -/
theorem c10_early_dispatches_dropped (f : Fetcher) (subT : Nat)
    (pre post : List TimedDispatch) (d : TimedDispatch)
    (hd : d.time < subT) :
    serviceRun f subT (pre ++ d :: post) = serviceRun f subT (pre ++ post) ∧
    serviceRun f subT (pre ++ d :: post) =
      serviceRun f 0 ((pre ++ d :: post).filter (fun e => decide (subT ≤ e.time))) := by
  have hdf : decide (subT ≤ d.time) = false := decide_eq_false (by omega)
  constructor
  · unfold serviceRun
    rw [List.filter_append, List.filter_append, List.filter_cons, hdf]
    simp
  · unfold serviceRun
    have hall : ∀ e ∈ (pre ++ d :: post).filter (fun e => decide (subT ≤ e.time)),
        decide (0 ≤ e.time) = true := by
      intro e _
      simp
    rw [List.filter_eq_self.mpr hall]

/-- Witness for C10: a dispatch at time 0 with the subscription starting
    at time 5 is dropped from the run. -/
theorem c10_early_dispatches_dropped_witness :
    (({ time := 0, resolveTime := 1, action := Action.NEW_PAGE 2,
        state := sampleFull } : TimedDispatch).time < 5) ∧
    (serviceRun (fun _ _ => none) 5
      ([] ++ ({ time := 0, resolveTime := 1, action := Action.NEW_PAGE 2,
                state := sampleFull } : TimedDispatch) :: []) =
     serviceRun (fun _ _ => none) 5 ([] ++ []) ∧
    serviceRun (fun _ _ => none) 5
      ([] ++ ({ time := 0, resolveTime := 1, action := Action.NEW_PAGE 2,
                state := sampleFull } : TimedDispatch) :: []) =
     serviceRun (fun _ _ => none) 0
       (([] ++ ({ time := 0, resolveTime := 1, action := Action.NEW_PAGE 2,
                  state := sampleFull } : TimedDispatch) :: []).filter
         (fun e => decide (5 ≤ e.time)))) :=
  ⟨by decide,
    c10_early_dispatches_dropped (fun _ _ => none) 5 [] []
      { time := 0, resolveTime := 1, action := Action.NEW_PAGE 2, state := sampleFull }
      (by decide)⟩

/-- Refinement alternative modelled from the spec's words: the engine
    "must apply each action to the latest state in effect at
    action-processing time", i.e. processing applies the event's action
    to the currently published state, ignoring the snapshot the caller
    attached to the event. -/
def processEventSpec (f : Fetcher) (published : State) (event : Event) :
    State × List FetchCall :=
  processEvent f { action := event.action, state := published }

/-- The transport of the C3 counterexample: a three-record catalog. -/
def cexFetcher : Fetcher := fun _ _ => some { count := 3, results := [7, 8, 9] }

/-- The state the constructor's empty search publishes under cexFetcher
    (pageSize 25, count 3, portion 1 cached). -/
def cexBoot : State :=
  (processEvent cexFetcher { action := Action.SEARCH "", state := initialState }).1

/-- First counterexample dispatch: ChangePageSize(10) carrying the boot
    state, resolving before the next dispatch - its result (pageSize 10)
    is published. -/
def cexDispatch1 : TimedDispatch :=
  { time := 1, resolveTime := 2, action := Action.CHANGE_PAGE_SIZE 10, state := cexBoot }

/-- Second counterexample dispatch: GoToPage(1) still carrying the boot
    snapshot (its caller never saw the pageSize-10 state). -/
def cexDispatch2 : TimedDispatch :=
  { time := 3, resolveTime := 4, action := Action.NEW_PAGE 1, state := cexBoot }

/-- Counterexample to C3 as stated: in the run [cexDispatch1, cexDispatch2]
    both events emit; the first publishes a pageSize-10 state, which is
    the most recently published state when the second is processed; yet
    the second published state carries pageSize 25: the engine derived it
    from the stale snapshot the caller attached at dispatch time, and it
    differs from the state that applying the action to the most recently
    published state (processEventSpec) yields. -/
theorem c3_engine_ignores_published_state_cex :
    (switchRun cexFetcher [cexDispatch1, cexDispatch2]).map State.pageSize = [10, 25] ∧
    (processEventSpec cexFetcher
        (processEvent cexFetcher
          { action := Action.CHANGE_PAGE_SIZE 10, state := cexBoot }).1
        { action := Action.NEW_PAGE 1, state := cexBoot }).1.pageSize = 10 ∧
    (switchRun cexFetcher [cexDispatch1, cexDispatch2]).get? 1 ≠
      some (processEventSpec cexFetcher
        (processEvent cexFetcher
          { action := Action.CHANGE_PAGE_SIZE 10, state := cexBoot }).1
        { action := Action.NEW_PAGE 1, state := cexBoot }).1 := by
  refine ⟨by decide, by decide, ?_⟩
  intro h
  have h2 := congrArg (fun o => Option.map State.pageSize o) h
  have h3 : (some 25 : Option Nat) = some 10 := by
    calc (some 25 : Option Nat)
        = ((switchRun cexFetcher [cexDispatch1, cexDispatch2]).get? 1).map State.pageSize := by
          decide
      _ = (some (processEventSpec cexFetcher
            (processEvent cexFetcher
              { action := Action.CHANGE_PAGE_SIZE 10, state := cexBoot }).1
            { action := Action.NEW_PAGE 1, state := cexBoot }).1).map State.pageSize := h2
      _ = some 10 := by decide
  exact absurd (Option.some.inj h3) (by decide)

/-- Amended C3: the engine derives each published state from the state
    snapshot the caller attached to the event at dispatch time, not from
    the most recently published state: the pipeline output is exactly
    processEvent applied to each emitting dispatch's own carried state,
    and a successful GoToPage result takes pageSize, searchTerm and count
    from that snapshot. -/
theorem c3_engine_uses_dispatch_snapshot (f : Fetcher) (ds : List TimedDispatch)
    (s : State) (p : Nat)
    (hok : (processEvent f { action := .NEW_PAGE p, state := s }).1.error = false) :
    switchRun f ds = (switchEmitsIdx ds).filterMap
      (fun k => (ds.get? k).map
        (fun d => (processEvent f { action := d.action, state := d.state }).1)) ∧
    (processEvent f { action := .NEW_PAGE p, state := s }).1.pageSize = s.pageSize ∧
    (processEvent f { action := .NEW_PAGE p, state := s }).1.searchTerm = s.searchTerm ∧
    (processEvent f { action := .NEW_PAGE p, state := s }).1.count = s.count := by
  refine ⟨switchRun_eq_emits f ds, ?_⟩
  have hne : (s.error || s.initial) = false := by
    cases hb : s.error || s.initial
    · rfl
    · exfalso
      have herr : (processEvent f { action := Action.NEW_PAGE p, state := s }).1 =
          errorStateObservable := by
        show (newPage__ f (State.copyOf s) p).1 = _
        rw [State.copyOf_eq]
        unfold newPage__
        rw [hb]
        rfl
      rw [herr] at hok
      exact absurd hok (by decide)
  have hpe : processEvent f { action := Action.NEW_PAGE p, state := s } =
      makeNewStateObservable f { s with page := some (if p > s.pagesCount then 1 else p) } := by
    show newPage__ f (State.copyOf s) p = _
    rw [State.copyOf_eq]
    unfold newPage__
    rw [hne]
    rfl
  rw [hpe] at hok ⊢
  rcases makeNewState_fields f
      { s with page := some (if p > s.pagesCount then 1 else p) } with herr | hf
  · rw [herr] at hok
    exact absurd hok (by decide)
  · exact ⟨hf.1, hf.2.1, hf.2.2.2.1⟩

/-- Witness for the amended C3: a successful GoToPage keeps the
    snapshot's pageSize, searchTerm and count. -/
theorem c3_engine_uses_dispatch_snapshot_witness :
    (processEvent (fun _ _ => none)
      { action := Action.NEW_PAGE 2, state := sampleCached }).1.error = false ∧
    (switchRun (fun _ _ => none) [] = (switchEmitsIdx []).filterMap
      (fun k => (([] : List TimedDispatch).get? k).map
        (fun d => (processEvent (fun _ _ => none)
          { action := d.action, state := d.state }).1)) ∧
    (processEvent (fun _ _ => none)
      { action := Action.NEW_PAGE 2, state := sampleCached }).1.pageSize =
        sampleCached.pageSize ∧
    (processEvent (fun _ _ => none)
      { action := Action.NEW_PAGE 2, state := sampleCached }).1.searchTerm =
        sampleCached.searchTerm ∧
    (processEvent (fun _ _ => none)
      { action := Action.NEW_PAGE 2, state := sampleCached }).1.count =
        sampleCached.count) :=
  ⟨by decide,
    c3_engine_uses_dispatch_snapshot (fun _ _ => none) [] sampleCached 2 (by decide)⟩

/-! The caching PlanetsService (lastSearched and planetsPortionsCache). -/

/-- Model of the caching PlanetsService: the lastSearched term and the
    portion cache (the stored shareReplay observables, represented by
    their replayed values). -/
structure PlanetsServiceState where
  lastSearched : String
  planetsPortionsCache : Nat → Option PlanetsPortion

/-- PlanetsService.getPlanetsPortion(page, search): when the term differs
    from lastSearched, clear the cache and remember the term; return the
    cached observable when present; otherwise issue the request (http is
    the transport), store the observable on success, and leave no entry on
    failure (catchError deletes it and rethrows). -/
def getPlanetsPortion (http : Nat → String → Option PlanetsPortion)
    (page : Nat) (search : String) (svc : PlanetsServiceState) :
    Option PlanetsPortion × PlanetsServiceState :=
  let svc1 :=
    if search ≠ svc.lastSearched then
      { lastSearched := search, planetsPortionsCache := fun _ => none }
    else svc
  match svc1.planetsPortionsCache page with
  | some portion => (some portion, svc1)
  | none =>
    match http page search with
    | some portion =>
      (some portion,
        { svc1 with planetsPortionsCache := fun j =>
            if j = page then some portion else svc1.planetsPortionsCache j })
    | none => (none, svc1)

/-- Every entry of the resolution result's table is either a portion
    freshly fetched with the state's own searchTerm, or an entry that was
    already present in the input table. -/
theorem makeNewState_entries {f : Fetcher} {st : State} {i : Nat} {rs : List Planet}
    (h : (makeNewStateObservable f st).1.memoizedPortions i = some rs) :
    (∃ por, f i st.searchTerm = some por ∧ rs = por.results) ∨
    st.memoizedPortions i = some rs := by
  cases hc : st.count with
  | none =>
    rw [makeNewState_unset (Or.inl hc)] at h
    exact Or.inr h
  | some c =>
    cases hp : st.page with
    | none =>
      rw [makeNewState_unset (Or.inr hp)] at h
      exact Or.inr h
    | some p =>
      by_cases h0 : c = 0
      · subst h0
        rw [makeNewState_zero hc hp] at h
        exact Or.inr h
      · rw [makeNewState_pos hc hp h0] at h
        by_cases hemp : (missingIndexes st c p).isEmpty
        · rw [if_pos hemp] at h
          exact Or.inr h
        · rw [if_neg hemp] at h
          cases hfp : fetchPortions f st.searchTerm (missingIndexes st c p) with
          | none =>
            rw [hfp] at h
            dsimp only at h
            exact Option.noConfusion
              (show (none : Option (List Planet)) = some rs from h)
          | some fetched =>
            rw [hfp] at h
            dsimp only at h
            unfold mergePortions at h
            cases hlk : fetched.lookup i with
            | some rs2 =>
              rw [hlk] at h
              rcases fetchPortions_sound hfp _ (lookup_mem_pair hlk) with ⟨por, hfi, hres⟩
              refine Or.inl ⟨por, hfi, ?_⟩
              rw [← Option.some.inj h]
              exact hres
            | none =>
              rw [hlk] at h
              exact Or.inr h

/-- C8: cache invalidation on a new term, at both layers.  Engine layer:
    after Search(t2) every entry of the published state's memoizedPortions
    is a portion fetched with t2 - __search resets the table before
    refilling it, so nothing cached while browsing a previous term t1 is
    reused.  Service layer: a getPlanetsPortion call whose term t2 differs
    from lastSearched = t1 clears the stored cache first, so its outcome
    is exactly the transport's response, never a t1-cached portion. -/
theorem c8_cache_wiped_on_new_term (f : Fetcher) (s : State) (t2 : String)
    (http : Nat → String → Option PlanetsPortion) (svc : PlanetsServiceState)
    (t1 : String) (page : Nat)
    (hlast : svc.lastSearched = t1) (hne : t1 ≠ t2) :
    (∀ i rs,
      (processEvent f { action := .SEARCH t2, state := s }).1.memoizedPortions i = some rs →
      ∃ por, f i (some t2) = some por ∧ rs = por.results) ∧
    (getPlanetsPortion http page t2 svc).1 = http page t2 := by
  constructor
  · intro i rs hrs
    have hpe : processEvent f { action := Action.SEARCH t2, state := s } =
        search__ f s t2 := rfl
    rw [hpe] at hrs
    unfold search__ at hrs
    cases hf : f 1 (some t2) with
    | none =>
      rw [hf] at hrs
      dsimp only at hrs
      exact Option.noConfusion
        (show (none : Option (List Planet)) = some rs from hrs)
    | some portion =>
      rw [hf] at hrs
      dsimp only at hrs
      rcases makeNewState_entries hrs with ⟨por, hfi, hres⟩ | hentry
      · exact ⟨por, hfi, hres⟩
      · dsimp only at hentry
        by_cases hcnd : portion.count > 0 ∧ i = 1
        · rw [if_pos hcnd] at hentry
          refine ⟨portion, ?_, (Option.some.inj hentry).symm⟩
          rw [hcnd.2]
          exact hf
        · rw [if_neg hcnd] at hentry
          exact Option.noConfusion
            (show (none : Option (List Planet)) = some rs from hentry)
  · unfold getPlanetsPortion
    have hcond : t2 ≠ svc.lastSearched := by
      rw [hlast]
      exact fun h => hne h.symm
    rw [if_pos hcond]
    dsimp only
    cases hh : http page t2 with
    | some portion => rfl
    | none => rfl

/-- A concrete service-cache state browsing term "old" with portion 1
    stored. -/
def sampleSvc : PlanetsServiceState :=
  { lastSearched := "old"
    planetsPortionsCache := fun i =>
      if i = 1 then some { count := 1, results := [5] } else none }

/-- Witness for C8 at concrete terms "old" and "new". -/
theorem c8_cache_wiped_on_new_term_witness :
    sampleSvc.lastSearched = "old" ∧
    ("old" : String) ≠ "new" ∧
    ((∀ i rs,
      (processEvent (fun j _ => some { count := 3, results := [j] })
        { action := Action.SEARCH "new", state := samplePageSize5 }).1.memoizedPortions i =
          some rs →
      ∃ por, (fun (j : Nat) (_ : Option String) =>
          some { count := 3, results := [j] } : Fetcher) i (some "new") = some por ∧
        rs = por.results) ∧
    (getPlanetsPortion (fun _ _ => none) 1 "new" sampleSvc).1 = (fun _ _ => none : Nat → String → Option PlanetsPortion) 1 "new") :=
  ⟨rfl, by decide,
    c8_cache_wiped_on_new_term (fun j _ => some { count := 3, results := [j] })
      samplePageSize5 "new" (fun _ _ => none) sampleSvc "old" 1 rfl (by decide)⟩

end PlanetsApp
